import Mathlib

/-!
Verification model of the UTM faith-study planner (`app.py`).

The Python program is shallowly embedded: every function of the source that
the verified claims touch is translated into an executable Lean definition.
Python strings are modelled as Lean `String`s, but the Python string methods
(`strip`, `lower`, `split`, `in`, `capitalize`, `sorted`) are re-implemented
on `String.data` (`List Char`) by structural recursion so that all
definitions evaluate inside the kernel.  Pandas cells are modelled by `Cell`
(a string or NaN); a pandas `DataFrame` is a list of column labels plus a
list of rows, each row an association list from column label to cell.
-/

namespace App

/-! ### Python string primitives -/

/-- Python `str.lower()` (ASCII case folding, which covers this data set). -/
def pyLower (s : String) : String := ⟨s.data.map Char.toLower⟩

/-- Python `str.strip()`: drop leading and trailing whitespace. -/
def pyStrip (s : String) : String :=
  ⟨((s.data.dropWhile Char.isWhitespace).reverse.dropWhile Char.isWhitespace).reverse⟩

/-- Helper for `pySplit`: split a character list at every occurrence of `sep`. -/
def splitAux (sep : Char) : List Char → List Char → List (List Char)
  | [], acc => [acc.reverse]
  | c :: cs, acc =>
    if c = sep then acc.reverse :: splitAux sep cs []
    else splitAux sep cs (c :: acc)

/-- Python `str.split(sep)` for a one-character separator
(`"".split(",") = [""]`, exactly as in Python). -/
def pySplit (s : String) (sep : Char) : List String :=
  (splitAux sep s.data []).map String.mk

/-- Contiguous-sublist test on character lists. -/
def listSubst (pat : List Char) : List Char → Bool
  | [] => pat.isEmpty
  | c :: rest => pat.isPrefixOf (c :: rest) || listSubst pat rest

/-- Python substring test `pat in s`. -/
def pyContains (s pat : String) : Bool := listSubst pat.data s.data

/-- Python `str.capitalize()`: first character upper-cased, the rest lower-cased. -/
def pyCapitalize (s : String) : String :=
  match s.data with
  | [] => ""
  | c :: cs => ⟨c.toUpper :: cs.map Char.toLower⟩

/-- Python `<` on strings: lexicographic comparison by code point. -/
def listLtB : List Char → List Char → Bool
  | [], [] => false
  | [], _ :: _ => true
  | _ :: _, [] => false
  | a :: as, b :: bs =>
    if a.toNat < b.toNat then true
    else if b.toNat < a.toNat then false
    else listLtB as bs

/-- Comparison `a ≤ b` on strings, as used by Python `sorted`. -/
def pyStrLe (a b : String) : Bool := !(listLtB b.data a.data)

/-- Insert into a `pyStrLe`-sorted list, keeping it sorted. -/
def insertSorted (x : String) : List String → List String
  | [] => [x]
  | y :: ys => if pyStrLe x y then x :: y :: ys else y :: insertSorted x ys

/-- Python `sorted` on a list of strings (insertion sort; on duplicate-free
input every correct sort returns the same list). -/
def pySorted : List String → List String
  | [] => []
  | x :: xs => insertSorted x (pySorted xs)

/-! ### Pandas cells and the data-frame shape consumed by `process_csv_data` -/

/-- A pandas cell: a string, or NaN (the value pandas gives blank cells). -/
inductive Cell where
  | str (s : String)
  | nan
deriving Repr, DecidableEq

/-- Python `str(cell)` (`str(float('nan')) = "nan"`). -/
def cellStr : Cell → String
  | .str s => s
  | .nan => "nan"

abbrev Row := List (String × Cell)

structure DataFrame where
  columns : List String
  rows : List Row
deriving Repr

/-- Lookup `row.get(key, dflt)` on a pandas row: the stored cell (possibly
NaN) when the column exists, else the default. -/
def rowGet (row : Row) (key : String) (dflt : String) : Cell :=
  match row.lookup key with
  | some c => c
  | none => .str dflt

/-- Indexing `row[key]` for a column known to belong to the frame. -/
def rowIdx (row : Row) (key : String) : Cell := (row.lookup key).getD .nan

/-! ### `app.py` constants and helpers -/

def FAITH_STUDIES : List String := ["discovery", "source", "growth", "trust", "commission"]

def DAY_NAMES : List String :=
  ["monday", "tuesday", "wednesday", "thursday", "friday", "saturday", "sunday"]

/-- The comprehension `[c.strip().lower() for c in str(x).split(",") if c.strip()]`
used identically in `get_next_faith_study` and `has_led`. -/
def normalizeCSL (s : String) : List String :=
  ((pySplit s ',').filter (fun c => !decide (pyStrip c = ""))).map (fun c => pyLower (pyStrip c))

/-- Function `get_next_faith_study` (app.py lines 14-22). -/
def get_next_faith_study (completed : Cell) : Option String :=
  match completed with
  | .nan => some (FAITH_STUDIES.headD "")
  | .str s =>
    let completed_lower := normalizeCSL s
    FAITH_STUDIES.find? (fun study => !decide (study ∈ completed_lower))

/-- The normalized completed-studies token list of a cell: empty for NaN,
else the same comma-separated, stripped, lower-cased tokens the source
builds.  Used to state what `get_next_faith_study` depends on. -/
def completedTokens : Cell → List String
  | .nan => []
  | .str s => normalizeCSL s

/-- Function `has_led` (app.py lines 24-29). -/
def has_led (study : String) (led : Cell) : Bool :=
  match led with
  | .nan => false
  | .str s => decide (study ∈ normalizeCSL s)

/-- The test applied to one availability value inside `find_common_slots`:
`pd.notna(value) and str(value).strip()` followed by the weekday-name scan.
Availability values are always strings at both call sites (they are built by
`str(...)` in `process_csv_data` or arrive as JSON strings), so `pd.notna`
is always true and is subsumed by the non-blank test. -/
def slotValueAvailable (v : String) : Bool :=
  !decide (pyStrip v = "") &&
    DAY_NAMES.any (fun day => pyContains (pyLower (pyStrip v)) day)

/-- The per-person slot set built by the first loop of `find_common_slots`. -/
def personAvailableSlots (avail : List (String × String)) : List String :=
  (avail.filter (fun sv => slotValueAvailable sv.2)).map (fun sv => sv.1)

/-- Function `find_common_slots` (app.py lines 31-53): the sorted intersection of the
members' available-slot sets (`dedup` supplies Python's set semantics; the
source's second early return on an empty slot-set list is unreachable when
the input list is non-empty). -/
def find_common_slots (avail_dicts : List (List (String × String))) : List String :=
  match avail_dicts with
  | [] => []
  | a :: rest =>
    pySorted ((personAvailableSlots a).filter
      (fun slot => rest.all (fun b => decide (slot ∈ personAvailableSlots b)))).dedup

/-! ### Person and group records -/

structure MemberDetail where
  name : String
  email : Cell
  phone : Cell
  year : Cell
  program : Cell
deriving Repr, DecidableEq

structure Person where
  id : String
  first : Cell
  last : Cell
  gender : String
  email : Cell
  phone : Cell
  year : Cell
  program : Cell
  religion : Cell
  next_study : Option String
  willing_lead : Bool
  already_led : Cell
  avail : List (String × String)
deriving Repr, DecidableEq

structure Group where
  id : String
  faith_study : String
  gender : String
  leader : Option String
  members : List String
  common_availabilities : List String
  member_details : List (String × MemberDetail)
deriving Repr, DecidableEq

/-! ### Cohort normalizer (app.py lines 55-83) -/

def LED_COL : String := "Please indicate which faith studies you have led:"

def COMPLETED_COL : String := "Please indicate which faith studies you've completed."

def GENDER_COL : String := "Please indicate your gender."

/-- Availability-column discovery (app.py lines 58-63): everything after the
"studies you have led" column, or, when that anchor is missing, every column
whose label contains "timeslot" (case-insensitive) or both "[" and "]". -/
def availability_cols (df : DataFrame) : List String :=
  match df.columns.findIdx? (fun c => decide (c = LED_COL)) with
  | some i => df.columns.drop (i + 1)
  | none =>
    df.columns.filter (fun col =>
      pyContains (pyLower col) "timeslot" || (pyContains col "[" && pyContains col "]"))

/-- One iteration of the person-building loop (app.py lines 67-83).
`row.get(GENDER_COL, "").strip().lower()` raises `AttributeError` when the
gender cell is NaN (a float has no `.strip`), which is modelled as
`Except.error`; every other field is NaN-safe. -/
def mkPerson (availCols : List String) (idx : Nat) (row : Row) : Except String Person :=
  match rowGet row GENDER_COL "" with
  | .nan => .error "AttributeError: float object has no attribute strip"
  | .str g =>
    .ok
      { id := cellStr (rowGet row "First Name" "") ++ "_" ++
          cellStr (rowGet row "Last Name" "") ++ "_" ++ toString idx
        first := rowGet row "First Name" ""
        last := rowGet row "Last Name" ""
        gender := pyLower (pyStrip g)
        email := rowGet row "E-mail Address" ""
        phone := rowGet row "Cell Phone Number" ""
        year := rowGet row "What year of study are you currently in?" ""
        program := rowGet row "What is your program of study?" ""
        religion := rowGet row "Which religion/faith do you most identify with?" ""
        next_study := get_next_faith_study (rowGet row COMPLETED_COL "")
        willing_lead :=
          decide (pyLower (pyStrip (cellStr (rowGet row "Are you willing to lead a Faith Study?" ""))) = "yes")
        already_led := rowGet row LED_COL ""
        avail := availCols.map (fun col => (col, pyStrip (cellStr (rowIdx row col)))) }

/-- The person-building loop; the first raising row aborts the whole batch,
exactly as an uncaught exception would in the Python `for` loop. -/
def mkPeopleAux (availCols : List String) : Nat → List Row → Except String (List Person)
  | _, [] => .ok []
  | idx, r :: rs =>
    match mkPerson availCols idx r with
    | .error e => .error e
    | .ok p =>
      match mkPeopleAux availCols (idx + 1) rs with
      | .error e => .error e
      | .ok ps => .ok (p :: ps)

def mkPeople (df : DataFrame) : Except String (List Person) :=
  mkPeopleAux (availability_cols df) 0 df.rows

/-! ### Group matcher (app.py lines 85-127) -/

/-- Python truthiness of the `next_study` field (`None` and `""` are falsy). -/
def pyTruthyOpt : Option String → Bool
  | none => false
  | some s => !decide (s = "")

/-- The bucket-admission test (app.py line 89):
`p["next_study"] and p["gender"] and p["gender"].strip()`. -/
def eligible (p : Person) : Bool :=
  pyTruthyOpt p.next_study && !decide (p.gender = "") && !decide (pyStrip p.gender = "")

/-- The `(gender, study)` key a person is bucketed under. -/
def keyOf (p : Person) : String × String := (p.gender, p.next_study.getD "")

/-- Bucket keys in first-insertion order (a Python `defaultdict` iterates its
keys in the order they were first inserted). -/
def bucketKeys (people : List Person) : List (String × String) :=
  (people.filter eligible).foldl
    (fun acc p => if keyOf p ∈ acc then acc else acc ++ [keyOf p]) []

/-- The members of one bucket, in roster order. -/
def bucketMembers (people : List Person) (key : String × String) : List Person :=
  people.filter (fun p => eligible p && decide (keyOf p = key))

/-- Model of `itertools.combinations`: all `n`-element sublists in lexicographic order
of positions, exactly the order Python enumerates them. -/
def combinations {α : Type} : Nat → List α → List (List α)
  | 0, _ => [[]]
  | _ + 1, [] => []
  | n + 1, x :: xs => (combinations n xs).map (fun c => x :: c) ++ combinations (n + 1) xs

/-- The inner `for combo ... if common: ... break` loop for one size: the
first combination of that size whose members share a slot, with the shared
slots (app.py lines 98-125). -/
def firstValidCombo (members : List Person) (size : Nat) :
    Option (List Person × List String) :=
  (combinations size members).findSome? (fun combo =>
    let common := find_common_slots (combo.map Person.avail)
    if common.isEmpty then none else some (combo, common))

/-- Leader eligibility (app.py line 104). -/
def leaderEligible (study : String) (m : Person) : Bool :=
  m.willing_lead && !(has_led study m.already_led)

/-- Leader selection: the first eligible member in combination order. -/
def pickLeader (study : String) (combo : List Person) : Option String :=
  (combo.find? (leaderEligible study)).map Person.id

def memberDetailOf (m : Person) : MemberDetail :=
  { name := cellStr m.first ++ " " ++ cellStr m.last
    email := m.email
    phone := m.phone
    year := m.year
    program := m.program }

/-- The `group_data` record built for an accepted combination (app.py lines 108-122). -/
def groupOfCombo (counter : Nat) (gender study : String)
    (combo : List Person) (common : List String) : Group :=
  { id := "G" ++ toString counter
    faith_study := pyCapitalize study
    gender := pyCapitalize gender
    leader := pickLeader study combo
    members := combo.map Person.id
    common_availabilities := common
    member_details := combo.map (fun m => (m.id, memberDetailOf m)) }

/-- The size range `range(5, 1, -1)`. -/
def SIZE_RANGE : List Nat := [5, 4, 3, 2]

/-- The size loop for one bucket: the `break` in the source leaves only the
inner combination loop, so every size in `SIZE_RANGE` may contribute one
group; the counter advances once per emitted group. -/
def bucketGroups (gender study : String) (members : List Person) :
    List Nat → Nat → List Group
  | [], _ => []
  | size :: sizes, counter =>
    match firstValidCombo members size with
    | none => bucketGroups gender study members sizes counter
    | some (combo, common) =>
      groupOfCombo counter gender study combo common ::
        bucketGroups gender study members sizes (counter + 1)

/-- The outer loop over buckets, threading the group counter. -/
def processBuckets (people : List Person) : List (String × String) → Nat → List Group
  | [], _ => []
  | key :: keys, counter =>
    let gs := bucketGroups key.1 key.2 (bucketMembers people key) SIZE_RANGE counter
    gs ++ processBuckets people keys (counter + gs.length)

/-- The grouping phase of `process_csv_data` (app.py lines 85-127). -/
def process_groups (people : List Person) : List Group :=
  processBuckets people (bucketKeys people) 1

/-- Function `process_csv_data` (app.py lines 55-127): build the people, then
the groups. -/
def process_csv_data (df : DataFrame) : Except String (List Group × List Person) :=
  match mkPeople df with
  | .error e => .error e
  | .ok people => .ok (process_groups people, people)

/-! ### Move validator (app.py lines 191-229) -/

inductive MoveResult where
  | invalid (reason : String)
  | valid (common_slots : List String)
deriving Repr, DecidableEq

/-- Function `validate_move` (app.py lines 191-229), a pure decision function over the
request snapshot: look up the person and the two groups, then run the checks
in source order, short-circuiting on the first failure. -/
def validate_move (person_id from_group_id to_group_id : String)
    (groups : List Group) (people : List Person) : MoveResult :=
  match people.find? (fun p => decide (p.id = person_id)),
        groups.find? (fun g => decide (g.id = from_group_id)),
        groups.find? (fun g => decide (g.id = to_group_id)) with
  | some person, some from_group, some to_group =>
    if !(decide (person.gender = pyLower to_group.gender) &&
         decide (person.next_study = some (pyLower to_group.faith_study))) then
      .invalid "Gender or faith study mismatch"
    else if 5 ≤ to_group.members.length then
      .invalid "Target group is full (max 5 people)"
    else if from_group.members.length ≤ 2 then
      .invalid "Source group would be too small (min 2 people)"
    else
      let to_members :=
        (people.filter (fun p => decide (p.id ∈ to_group.members))) ++ [person]
      let common := find_common_slots (to_members.map Person.avail)
      if common.isEmpty then .invalid "No common availability slots"
      else .valid common
  | _, _, _ => .invalid "Person or group not found"

/-- The availability recomputation validate_move performs for a candidate
move: the common slots of the destination's current members plus the
candidate (app.py lines 221-224). -/
def recomputedSlots (people : List Person) (t : Group) (p : Person) : List String :=
  find_common_slots
    (((people.filter (fun q => decide (q.id ∈ t.members))) ++ [p]).map Person.avail)

/-- Two group records that agree on everything except (possibly) the stored
`common_availabilities`. -/
def sameExceptCA (g₁ g₂ : Group) : Prop :=
  g₁.id = g₂.id ∧ g₁.faith_study = g₂.faith_study ∧ g₁.gender = g₂.gender ∧
  g₁.leader = g₂.leader ∧ g₁.members = g₂.members ∧ g₁.member_details = g₂.member_details

/-- The invariant C2 asserts of every emitted group: size within [2,5],
non-empty common availability, members drawn from one (gender, study)
bucket (hence uniform gender and next study), common availability equal to
the recomputation over the members, and a leader that is the first willing,
not-yet-led member in combination order, or `none` when no member
qualifies. -/
def groupInvariant (people : List Person) (g : Group) : Prop :=
  (2 ≤ g.members.length ∧ g.members.length ≤ 5) ∧
  g.common_availabilities ≠ [] ∧
  ∃ (gender study : String) (combo : List Person),
    g.gender = pyCapitalize gender ∧
    g.faith_study = pyCapitalize study ∧
    g.members = combo.map Person.id ∧
    (∀ m ∈ combo, m ∈ people ∧ eligible m = true ∧ m.gender = gender ∧
      m.next_study.getD "" = study) ∧
    g.common_availabilities = find_common_slots (combo.map Person.avail) ∧
    g.leader = (combo.find? (leaderEligible study)).map Person.id ∧
    (∀ lid, g.leader = some lid → lid ∈ g.members ∧
      ∃ m ∈ combo, m.id = lid ∧ m.willing_lead = true ∧
        has_led study m.already_led = false) ∧
    (g.leader = none → ∀ m ∈ combo, leaderEligible study m = false)

/-! ### Upload endpoint (app.py lines 133-189, after file parsing) -/

def REQUIRED_COLUMNS : List String :=
  ["First Name", "Last Name", GENDER_COL, COMPLETED_COL,
   "Are you willing to lead a Faith Study?"]

/-- Function `upload_file` after a table has been parsed: the required-column
check,
then `process_csv_data` (whose exception the route turns into a processing
error), then the `if not people` guard, else the success payload. -/
def upload_file (df : DataFrame) : Except String (List Group × List Person) :=
  let missing := REQUIRED_COLUMNS.filter (fun c => !decide (c ∈ df.columns))
  if !missing.isEmpty then
    .error ("Missing required columns: " ++ String.intercalate ", " missing)
  else
    match process_csv_data df with
    | .error e => .error ("Error processing file: " ++ e)
    | .ok (groups, people) =>
      if people.isEmpty then .error "No valid people found in the data"
      else .ok (groups, people)

/-! ### Concrete data used by counterexamples and witnesses -/

/-- A cohort member for the concrete cohorts: eligible, next study
"discovery", available on the one slot `"S"`. -/
def mkP (n : String) (k : Nat) : Person :=
  { id := n ++ "_" ++ n ++ "_" ++ toString k
    first := .str n
    last := .str n
    gender := "male"
    email := .str ""
    phone := .str ""
    year := .str ""
    program := .str ""
    religion := .str ""
    next_study := some "discovery"
    willing_lead := k == 0
    already_led := .str ""
    avail := [("S", "Mondays")] }

/-- Five eligible people in one bucket, all free on slot `"S"`. -/
def cohort5 : List Person := [mkP "a" 0, mkP "b" 1, mkP "c" 2, mkP "d" 3, mkP "e" 4]

def defaultGroup : Group :=
  { id := "", faith_study := "", gender := "", leader := none
    members := [], common_availabilities := [], member_details := [] }

/-- Person used for the move-validation snapshots: not listed in the source
group below, already listed in the destination group below. -/
def personC9 : Person := mkP "px" 0

def g1C9 : Group :=
  { id := "G1", faith_study := "Discovery", gender := "Male", leader := none
    members := ["q1", "q2", "q3"], common_availabilities := [], member_details := [] }

def g2C9 : Group :=
  { id := "G2", faith_study := "Discovery", gender := "Male", leader := none
    members := ["px_px_0"], common_availabilities := [], member_details := [] }

/-- Snapshot groups for the staleness claim: identical except for the stored
`common_availabilities`. -/
def gW : Group :=
  { id := "G2", faith_study := "Discovery", gender := "Male", leader := none
    members := ["px_px_0"], common_availabilities := [], member_details := [] }

def gW2 : Group := { gW with common_availabilities := ["completely", "stale", "slots"] }

def gFrom : Group :=
  { id := "G1", faith_study := "Discovery", gender := "Male", leader := none
    members := ["q1", "q2", "q3"], common_availabilities := ["S"], member_details := [] }

def gFrom2 : Group := { gFrom with common_availabilities := [] }

/-- A data frame whose single row has a blank (NaN) gender cell. -/
def dfC4 : DataFrame :=
  { columns := REQUIRED_COLUMNS
    rows := [[("First Name", .str "Ada"), ("Last Name", .str "Lovelace"),
              (GENDER_COL, .nan), (COMPLETED_COL, .str "discovery"),
              ("Are you willing to lead a Faith Study?", .str "yes")]] }

/-- A data frame whose single person has completed every study: the cohort is
non-empty but nobody is eligible for grouping. -/
def dfC5 : DataFrame :=
  { columns := REQUIRED_COLUMNS
    rows := [[("First Name", .str "Ada"), ("Last Name", .str "Lovelace"),
              (GENDER_COL, .str "Female"),
              (COMPLETED_COL, .str "discovery, source, growth, trust, commission"),
              ("Are you willing to lead a Faith Study?", .str "yes")]] }

/-- A data frame with the required columns and no data rows. -/
def dfEmpty : DataFrame := { columns := REQUIRED_COLUMNS, rows := [] }

/-- Availability maps used by the `find_common_slots` witness. -/
def availW : List (String × String) := [("S1", "Mondays"), ("S2", "none"), ("S3", "Fridays")]

def availW2 : List (String × String) := [("S1", "monday evenings"), ("S3", "no")]

/-! ### Order lemmas for `pySorted` -/

theorem listLtB_asymm : ∀ x y : List Char, listLtB x y = true → listLtB y x = false := by
  intro x
  induction x with
  | nil =>
    intro y h
    cases y with
    | nil => simp [listLtB] at h
    | cons b bs => simp [listLtB]
  | cons a as ih =>
    intro y h
    cases y with
    | nil => simp [listLtB] at h
    | cons b bs =>
      simp only [listLtB] at h ⊢
      by_cases h1 : a.toNat < b.toNat
      · have h2 : ¬ b.toNat < a.toNat := by omega
        simp [h1, h2]
      · by_cases h2 : b.toNat < a.toNat
        · simp [h1, h2] at h
        · simp only [h1, h2, if_false] at h ⊢
          exact ih bs h

theorem pyStrLe_total (a b : String) : pyStrLe a b = true ∨ pyStrLe b a = true := by
  simp only [pyStrLe, Bool.not_eq_true']
  cases h : listLtB b.data a.data
  · exact Or.inl rfl
  · exact Or.inr (listLtB_asymm _ _ h)

theorem listLtB_cotrans : ∀ x y z : List Char, listLtB x z = true →
    listLtB x y = true ∨ listLtB y z = true := by
  intro x
  induction x with
  | nil =>
    intro y z hz
    cases z with
    | nil => simp [listLtB] at hz
    | cons c cs =>
      cases y with
      | nil => exact Or.inr (by simp [listLtB])
      | cons b bs => exact Or.inl (by simp [listLtB])
  | cons a as ih =>
    intro y z hz
    cases z with
    | nil => simp [listLtB] at hz
    | cons c cs =>
      cases y with
      | nil => exact Or.inr (by simp [listLtB])
      | cons b bs =>
        simp only [listLtB] at hz ⊢
        by_cases hab : a.toNat < b.toNat
        · left; simp [hab]
        · by_cases hba : b.toNat < a.toNat
          · right
            by_cases hac : a.toNat < c.toNat
            · have hbc : b.toNat < c.toNat := by omega
              simp [hbc]
            · by_cases hca : c.toNat < a.toNat
              · simp [hac, hca] at hz
              · have hbc : b.toNat < c.toNat := by omega
                simp [hbc]
          · by_cases hac : a.toNat < c.toNat
            · right
              have hbc : b.toNat < c.toNat := by omega
              simp [hbc]
            · by_cases hca : c.toNat < a.toNat
              · simp [hac, hca] at hz
              · simp only [hac, hca, if_false] at hz
                rcases ih bs cs hz with h | h
                · left; simp [hab, hba, h]
                · right
                  have hbc : ¬ b.toNat < c.toNat := by omega
                  have hcb : ¬ c.toNat < b.toNat := by omega
                  simp [hbc, hcb, h]

theorem pyStrLe_trans {a b c : String} (h1 : pyStrLe a b = true) (h2 : pyStrLe b c = true) :
    pyStrLe a c = true := by
  simp only [pyStrLe, Bool.not_eq_true'] at h1 h2 ⊢
  cases hx : listLtB c.data a.data
  · rfl
  · rcases listLtB_cotrans c.data b.data a.data hx with h | h
    · rw [h2] at h; exact absurd h (by simp)
    · rw [h1] at h; exact absurd h (by simp)

theorem mem_insertSorted {x y : String} : ∀ {l : List String},
    y ∈ insertSorted x l ↔ y = x ∨ y ∈ l := by
  intro l
  induction l with
  | nil => simp [insertSorted]
  | cons z zs ih =>
    simp only [insertSorted]
    cases h : pyStrLe x z with
    | true => simp [List.mem_cons]
    | false =>
      simp only [Bool.false_eq_true, if_false, List.mem_cons, ih]
      tauto

theorem pairwise_insertSorted (x : String) : ∀ {l : List String},
    l.Pairwise (fun a b => pyStrLe a b = true) →
    (insertSorted x l).Pairwise (fun a b => pyStrLe a b = true) := by
  intro l
  induction l with
  | nil => intro _; simp [insertSorted]
  | cons z zs ih =>
    intro h
    rcases List.pairwise_cons.mp h with ⟨hz, hzs⟩
    simp only [insertSorted]
    cases hxz : pyStrLe x z with
    | true =>
      simp only [if_true]
      refine List.pairwise_cons.mpr ⟨?_, h⟩
      intro y hy
      rcases List.mem_cons.mp hy with rfl | hy'
      · exact hxz
      · exact pyStrLe_trans hxz (hz y hy')
    | false =>
      simp only [Bool.false_eq_true, if_false]
      refine List.pairwise_cons.mpr ⟨?_, ih hzs⟩
      intro y hy
      rcases mem_insertSorted.mp hy with heq | hy'
      · rw [heq]
        rcases pyStrLe_total x z with h' | h'
        · rw [hxz] at h'; exact absurd h' (by simp)
        · exact h'
      · exact hz y hy'

theorem mem_pySorted {x : String} : ∀ {l : List String}, x ∈ pySorted l ↔ x ∈ l := by
  intro l
  induction l with
  | nil => simp [pySorted]
  | cons z zs ih => simp [pySorted, mem_insertSorted, ih]

theorem sorted_pySorted : ∀ l : List String,
    (pySorted l).Pairwise (fun a b => pyStrLe a b = true) := by
  intro l
  induction l with
  | nil => simp [pySorted]
  | cons z zs ih => exact pairwise_insertSorted z ih

/-! ### Membership in `find_common_slots` -/

theorem mem_find_common_slots {a : List (String × String)}
    {rest : List (List (String × String))} {x : String} :
    x ∈ find_common_slots (a :: rest) ↔
      x ∈ personAvailableSlots a ∧ ∀ b ∈ rest, x ∈ personAvailableSlots b := by
  simp [find_common_slots, mem_pySorted, List.mem_dedup, List.mem_filter, List.all_eq_true]

/-- C6: `get_next_faith_study` returns the first study of the fixed
progression not present in the normalized completed set; the first study on
blank or missing text; `none` when all five are present; and the result
depends only on the normalized token list (hence is unchanged under
case/whitespace variation of the input text). -/
theorem C6_next_study :
    (∀ c : Cell, get_next_faith_study c =
        FAITH_STUDIES.find? (fun study => !decide (study ∈ completedTokens c))) ∧
    get_next_faith_study .nan = some "discovery" ∧
    get_next_faith_study (.str "") = some "discovery" ∧
    (∀ c : Cell, (∀ s ∈ FAITH_STUDIES, s ∈ completedTokens c) →
        get_next_faith_study c = none) ∧
    (∀ c₁ c₂ : Cell, completedTokens c₁ = completedTokens c₂ →
        get_next_faith_study c₁ = get_next_faith_study c₂) := by
  have hfind : ∀ c : Cell, get_next_faith_study c =
      FAITH_STUDIES.find? (fun study => !decide (study ∈ completedTokens c)) := by
    intro c
    cases c with
    | nan => decide
    | str s => rfl
  refine ⟨hfind, by decide, by decide, ?_, ?_⟩
  · intro c hall
    rw [hfind]
    apply List.find?_eq_none.mpr
    intro s hs
    simp [hall s hs]
  · intro c₁ c₂ h
    rw [hfind, hfind, h]

/-- Witness for C6: concrete case/whitespace variants of the same completed
set give the same next study. -/
theorem C6_witness :
    get_next_faith_study (.str "Discovery ,  SOURCE") =
      get_next_faith_study (.str "discovery,source") :=
  C6_next_study.2.2.2.2 (.str "Discovery ,  SOURCE") (.str "discovery,source") (by decide)

/-- C7: `find_common_slots` of an empty list is empty; on a non-empty list it
is exactly the intersection of the members' day-name-bearing slot sets, hence
a subset of every member's available slots, and the output is sorted. -/
theorem C7_common_slots :
    find_common_slots [] = [] ∧
    ∀ ds : List (List (String × String)), ds ≠ [] →
      ((∀ x, x ∈ find_common_slots ds ↔ ∀ a ∈ ds, x ∈ personAvailableSlots a) ∧
       (∀ a ∈ ds, ∀ x ∈ find_common_slots ds, x ∈ personAvailableSlots a) ∧
       (find_common_slots ds).Pairwise (fun s t => pyStrLe s t = true)) := by
  refine ⟨rfl, ?_⟩
  intro ds hds
  cases ds with
  | nil => exact absurd rfl hds
  | cons a rest =>
    refine ⟨?_, ?_, ?_⟩
    · intro x
      rw [mem_find_common_slots]
      simp [List.forall_mem_cons]
    · intro b hb x hx
      rw [mem_find_common_slots] at hx
      rcases List.mem_cons.mp hb with rfl | hb'
      · exact hx.1
      · exact hx.2 b hb'
    · simp only [find_common_slots]
      exact sorted_pySorted _

/-- Witness for C7 at a concrete pair of availability maps. -/
theorem C7_witness :
    find_common_slots [availW, availW2] = ["S1"] ∧
    (find_common_slots [availW, availW2]).Pairwise (fun s t => pyStrLe s t = true) :=
  ⟨by decide, (C7_common_slots.2 [availW, availW2] (by decide)).2.2⟩

/-! ### Move validation -/

/-- C3: `validate_move` always returns a structured result and runs its
checks in source order, short-circuiting: not-found, gender/faith-study
mismatch against the (lower-cased) destination labels, destination full
(5 or more members), source too small (2 or fewer members), empty
recomputed common availability; otherwise valid with the recomputed slot
list.  The embedding is a pure function of the request snapshot, so no
input is mutated. -/
theorem C3_validate_move_order :
    ∀ (pid fid tid : String) (groups : List Group) (people : List Person),
    ((people.find? (fun q => decide (q.id = pid)) = none ∨
      groups.find? (fun g => decide (g.id = fid)) = none ∨
      groups.find? (fun g => decide (g.id = tid)) = none) →
        validate_move pid fid tid groups people = .invalid "Person or group not found") ∧
    (∀ p f t, people.find? (fun q => decide (q.id = pid)) = some p →
        groups.find? (fun g => decide (g.id = fid)) = some f →
        groups.find? (fun g => decide (g.id = tid)) = some t →
      ((¬ (p.gender = pyLower t.gender ∧ p.next_study = some (pyLower t.faith_study)) →
          validate_move pid fid tid groups people =
            .invalid "Gender or faith study mismatch") ∧
       (p.gender = pyLower t.gender → p.next_study = some (pyLower t.faith_study) →
        5 ≤ t.members.length →
          validate_move pid fid tid groups people =
            .invalid "Target group is full (max 5 people)") ∧
       (p.gender = pyLower t.gender → p.next_study = some (pyLower t.faith_study) →
        t.members.length < 5 → f.members.length ≤ 2 →
          validate_move pid fid tid groups people =
            .invalid "Source group would be too small (min 2 people)") ∧
       (p.gender = pyLower t.gender → p.next_study = some (pyLower t.faith_study) →
        t.members.length < 5 → 2 < f.members.length → recomputedSlots people t p = [] →
          validate_move pid fid tid groups people =
            .invalid "No common availability slots") ∧
       (p.gender = pyLower t.gender → p.next_study = some (pyLower t.faith_study) →
        t.members.length < 5 → 2 < f.members.length → recomputedSlots people t p ≠ [] →
          validate_move pid fid tid groups people =
            .valid (recomputedSlots people t p)))) := by
  intro pid fid tid groups people
  constructor
  · intro h
    rcases hp : people.find? (fun q => decide (q.id = pid)) with _ | p <;>
      rcases hf : groups.find? (fun g => decide (g.id = fid)) with _ | f <;>
        rcases ht : groups.find? (fun g => decide (g.id = tid)) with _ | t <;>
          simp only [validate_move, hp, hf, ht] <;>
            simp only [hp, hf, ht] at h <;> tauto
  · intro p f t hp hf ht
    have hfull : p.gender = pyLower t.gender → p.next_study = some (pyLower t.faith_study) →
        (decide (p.gender = pyLower t.gender) &&
          decide (p.next_study = some (pyLower t.faith_study))) = true := by
      intro h1 h2
      simp [h1, h2]
    refine ⟨?_, ?_, ?_, ?_, ?_⟩
    · intro h
      have hb : (decide (p.gender = pyLower t.gender) &&
          decide (p.next_study = some (pyLower t.faith_study))) = false := by
        rcases Decidable.not_and_iff_or_not.mp h with h' | h' <;> simp [h']
      simp [validate_move, hp, hf, ht, hb]
    · intro h1 h2 h3
      simp [validate_move, hp, hf, ht, hfull h1 h2, h3, Nat.not_lt.mpr h3]
    · intro h1 h2 h3 h4
      simp [validate_move, hp, hf, ht, hfull h1 h2, Nat.not_le.mpr h3, h4]
    · intro h1 h2 h3 h4 h5
      have h5' : (recomputedSlots people t p).isEmpty = true := by
        simp [h5]
      simp [validate_move, hp, hf, ht, hfull h1 h2, Nat.not_le.mpr h3, Nat.not_le.mpr h4,
        recomputedSlots] at h5' ⊢
      simp [h5']
    · intro h1 h2 h3 h4 h5
      have h5' : (recomputedSlots people t p).isEmpty = false := by
        simpa [List.isEmpty_iff] using h5
      simp [validate_move, hp, hf, ht, hfull h1 h2, Nat.not_le.mpr h3, Nat.not_le.mpr h4,
        recomputedSlots] at h5' ⊢
      simp [h5']

/-- Witness for C3: on an empty snapshot the lookup fails and the structured
not-found result is returned. -/
theorem C3_witness :
    validate_move "nobody" "G1" "G2" [] [] = .invalid "Person or group not found" :=
  (C3_validate_move_order "nobody" "G1" "G2" [] []).1 (Or.inl rfl)

theorem find?_sameExceptCA {gs₁ gs₂ : List Group}
    (h : List.Forall₂ sameExceptCA gs₁ gs₂) (i : String) :
    (gs₁.find? (fun g => decide (g.id = i)) = none ∧
     gs₂.find? (fun g => decide (g.id = i)) = none) ∨
    (∃ a b, gs₁.find? (fun g => decide (g.id = i)) = some a ∧
            gs₂.find? (fun g => decide (g.id = i)) = some b ∧ sameExceptCA a b) := by
  induction h with
  | nil => exact Or.inl ⟨rfl, rfl⟩
  | @cons a b l₁ l₂ hab htail ih =>
    by_cases hid : a.id = i
    · right
      refine ⟨a, b, ?_, ?_, hab⟩
      · exact List.find?_cons_of_pos _ (by simp [hid])
      · exact List.find?_cons_of_pos _ (by simp [← hab.1, hid])
    · have hid2 : ¬ b.id = i := by rw [← hab.1]; exact hid
      rcases ih with ⟨h1, h2⟩ | ⟨x, y, h1, h2, hxy⟩
      · left
        refine ⟨?_, ?_⟩
        · rw [List.find?_cons_of_neg _ (by simp [hid])]; exact h1
        · rw [List.find?_cons_of_neg _ (by simp [hid2])]; exact h2
      · right
        refine ⟨x, y, ?_, ?_, hxy⟩
        · rw [List.find?_cons_of_neg _ (by simp [hid])]; exact h1
        · rw [List.find?_cons_of_neg _ (by simp [hid2])]; exact h2

/-- C8: the decision of `validate_move` never depends on any group's stored
`common_availabilities`: snapshots that differ only in those stored values
produce identical results, because availability is recomputed fresh from
current membership. -/
theorem C8_stored_slots_ignored :
    ∀ (pid fid tid : String) (gs₁ gs₂ : List Group) (people : List Person),
    List.Forall₂ sameExceptCA gs₁ gs₂ →
    validate_move pid fid tid gs₁ people = validate_move pid fid tid gs₂ people := by
  intro pid fid tid gs₁ gs₂ people h
  rcases find?_sameExceptCA h fid with ⟨hf1, hf2⟩ | ⟨f₁, f₂, hf1, hf2, hfr⟩ <;>
    rcases find?_sameExceptCA h tid with ⟨ht1, ht2⟩ | ⟨t₁, t₂, ht1, ht2, htr⟩ <;>
      cases hp : people.find? (fun q => decide (q.id = pid)) <;>
        simp only [validate_move, hp, hf1, hf2, ht1, ht2]
  obtain ⟨_, hfs, hgen, _, hmem, _⟩ := htr
  obtain ⟨_, _, _, _, hfmem, _⟩ := hfr
  rw [hfs, hgen, hmem, hfmem]

/-- Witness for C8: the same move request against two snapshots whose stored
common availabilities disagree wildly yields the same decision. -/
theorem C8_witness :
    validate_move "px_px_0" "G1" "G2" [gFrom, gW] [personC9] =
      validate_move "px_px_0" "G1" "G2" [gFrom2, gW2] [personC9] :=
  C8_stored_slots_ignored "px_px_0" "G1" "G2" [gFrom, gW] [gFrom2, gW2] [personC9]
    (List.Forall₂.cons ⟨rfl, rfl, rfl, rfl, rfl, rfl⟩
      (List.Forall₂.cons ⟨rfl, rfl, rfl, rfl, rfl, rfl⟩ List.Forall₂.nil))

/-- C9: `validate_move` never checks that the person is listed in the source
group or absent from the destination group: here the person is not a member
of `G1` and is already a member of `G2`, every enumerated check passes, and
the move is declared valid. -/
theorem C9_no_membership_check :
    validate_move "px_px_0" "G1" "G2" [g1C9, g2C9] [personC9] = .valid ["S"] ∧
    "px_px_0" ∉ g1C9.members ∧ "px_px_0" ∈ g2C9.members := by decide

/-! ### Structure of the matcher's output -/

theorem combinations_spec {α : Type} :
    ∀ (l : List α) (n : Nat) (c : List α),
    c ∈ combinations n l → c.length = n ∧ ∀ x ∈ c, x ∈ l := by
  intro l
  induction l with
  | nil =>
    intro n c hc
    cases n with
    | zero =>
      simp only [combinations, List.mem_singleton] at hc
      subst hc
      exact ⟨rfl, by simp⟩
    | succ m => simp [combinations] at hc
  | cons a as ih =>
    intro n c hc
    cases n with
    | zero =>
      simp only [combinations, List.mem_singleton] at hc
      subst hc
      exact ⟨rfl, by simp⟩
    | succ m =>
      simp only [combinations, List.mem_append, List.mem_map] at hc
      rcases hc with ⟨c', hc', rfl⟩ | hc
      · obtain ⟨hlen, hmem⟩ := ih m c' hc'
        refine ⟨by simp [hlen], ?_⟩
        intro x hx
        rcases List.mem_cons.mp hx with rfl | hx'
        · exact List.mem_cons_self _ _
        · exact List.mem_cons_of_mem _ (hmem x hx')
      · obtain ⟨hlen, hmem⟩ := ih (m + 1) c hc
        exact ⟨hlen, fun x hx => List.mem_cons_of_mem a (hmem x hx)⟩

theorem combinations_cons_of_le {α : Type} :
    ∀ (l : List α) (n : Nat), n ≤ l.length → ∃ c cs, combinations n l = c :: cs := by
  intro l
  induction l with
  | nil =>
    intro n h
    cases n with
    | zero => exact ⟨[], [], rfl⟩
    | succ m => simp at h
  | cons a as ih =>
    intro n h
    cases n with
    | zero => exact ⟨[], [], rfl⟩
    | succ m =>
      have hm : m ≤ as.length := by
        simp only [List.length_cons] at h
        omega
      obtain ⟨c, cs, hc⟩ := ih m hm
      exact ⟨a :: c, cs.map (fun x => a :: x) ++ combinations (m + 1) as,
        by simp [combinations, hc]⟩

theorem firstValidCombo_spec {members : List Person} {size : Nat} {combo : List Person}
    {common : List String}
    (h : firstValidCombo members size = some (combo, common)) :
    combo ∈ combinations size members ∧
    common = find_common_slots (combo.map Person.avail) ∧ common ≠ [] := by
  obtain ⟨c, hc, hfc⟩ := List.exists_of_findSome?_eq_some h
  by_cases he : (find_common_slots (c.map Person.avail)).isEmpty = true
  · simp only [he, if_true] at hfc
    exact absurd hfc (by simp)
  · simp only [he, if_false, Option.some.injEq, Prod.mk.injEq] at hfc
    obtain ⟨rfl, rfl⟩ := hfc
    refine ⟨hc, rfl, ?_⟩
    intro hnil
    exact he (by rw [hnil]; rfl)

theorem mem_bucketGroups {gender study : String} {members : List Person} {g : Group} :
    ∀ {sizes : List Nat} {counter : Nat},
    g ∈ bucketGroups gender study members sizes counter →
    ∃ size ∈ sizes, ∃ c combo common,
      firstValidCombo members size = some (combo, common) ∧
      g = groupOfCombo c gender study combo common := by
  intro sizes
  induction sizes with
  | nil =>
    intro counter hg
    simp [bucketGroups] at hg
  | cons s ss ih =>
    intro counter hg
    simp only [bucketGroups] at hg
    cases hfv : firstValidCombo members s with
    | none =>
      rw [hfv] at hg
      obtain ⟨size, hsz, rest⟩ := ih hg
      exact ⟨size, List.mem_cons_of_mem s hsz, rest⟩
    | some pr =>
      obtain ⟨combo, common⟩ := pr
      rw [hfv] at hg
      rcases List.mem_cons.mp hg with heq | hg'
      · exact ⟨s, List.mem_cons_self s ss, counter, combo, common, hfv, heq⟩
      · obtain ⟨size, hsz, rest⟩ := ih hg'
        exact ⟨size, List.mem_cons_of_mem s hsz, rest⟩

theorem mem_processBuckets {people : List Person} {g : Group} :
    ∀ {keys : List (String × String)} {counter : Nat},
    g ∈ processBuckets people keys counter →
    ∃ key ∈ keys, ∃ c,
      g ∈ bucketGroups key.1 key.2 (bucketMembers people key) SIZE_RANGE c := by
  intro keys
  induction keys with
  | nil =>
    intro counter hg
    simp [processBuckets] at hg
  | cons k ks ih =>
    intro counter hg
    simp only [processBuckets, List.mem_append] at hg
    rcases hg with hg | hg
    · exact ⟨k, List.mem_cons_self k ks, counter, hg⟩
    · obtain ⟨key, hk, rest⟩ := ih hg
      exact ⟨key, List.mem_cons_of_mem k hk, rest⟩

theorem mem_bucketMembers {people : List Person} {key : String × String} {m : Person} :
    m ∈ bucketMembers people key ↔
      m ∈ people ∧ eligible m = true ∧ keyOf m = key := by
  simp [bucketMembers, List.mem_filter, Bool.and_eq_true, decide_eq_true_eq, and_assoc]

/-- C2: every group emitted by the matcher satisfies the group invariant:
member count in [2,5], non-empty common availability equal to the live
recomputation, members all from one (gender, next_study) bucket (so gender
and faith study are uniform and the display labels capitalize the bucket
key), and a leader that is the first willing member who has not yet led the
bucket's study, or `none` when nobody qualifies. -/
theorem C2_group_invariant :
    ∀ (people : List Person) (g : Group),
    g ∈ process_groups people → groupInvariant people g := by
  intro people g hg
  obtain ⟨key, _, c, hg⟩ := mem_processBuckets hg
  obtain ⟨size, hsz, c', combo, common, hfv, rfl⟩ := mem_bucketGroups hg
  obtain ⟨hcombo, hcommon, hne⟩ := firstValidCombo_spec hfv
  obtain ⟨hlen, hmem⟩ := combinations_spec _ _ _ hcombo
  have hsize : 2 ≤ size ∧ size ≤ 5 := by
    simp only [SIZE_RANGE, List.mem_cons, List.not_mem_nil, or_false] at hsz
    rcases hsz with rfl | rfl | rfl | rfl <;> omega
  have hmembers : (groupOfCombo c' key.1 key.2 combo common).members = combo.map Person.id := rfl
  refine ⟨⟨?_, ?_⟩, ?_, key.1, key.2, combo, rfl, rfl, rfl, ?_, ?_, rfl, ?_, ?_⟩
  · rw [hmembers, List.length_map, hlen]
    exact hsize.1
  · rw [hmembers, List.length_map, hlen]
    exact hsize.2
  · show common ≠ []
    exact hne
  · intro m hm
    have h' := mem_bucketMembers.mp (hmem m hm)
    refine ⟨h'.1, h'.2.1, ?_, ?_⟩
    · exact congrArg Prod.fst h'.2.2
    · exact congrArg Prod.snd h'.2.2
  · exact hcommon
  · intro lid hlid
    have hlid' : (combo.find? (leaderEligible key.2)).map Person.id = some lid := hlid
    obtain ⟨m, hfind, hmid⟩ := Option.map_eq_some'.mp hlid'
    have hm : m ∈ combo := List.mem_of_find?_eq_some hfind
    have hpred := List.find?_some hfind
    simp only [leaderEligible, Bool.and_eq_true, Bool.not_eq_true'] at hpred
    refine ⟨?_, m, hm, hmid, hpred.1, hpred.2⟩
    rw [hmembers, ← hmid]
    exact List.mem_map_of_mem Person.id hm
  · intro hnone m hm
    have hnone' : (combo.find? (leaderEligible key.2)).map Person.id = none := hnone
    have hfind := Option.map_eq_none'.mp hnone'
    have := List.find?_eq_none.mp hfind m hm
    exact Bool.not_eq_true _ ▸ (by simpa using this)

/-- Witness for C2: the first group produced from the concrete five-person
cohort satisfies the invariant. -/
theorem C2_witness :
    groupInvariant cohort5 ((process_groups cohort5).getD 0 defaultGroup) :=
  C2_group_invariant cohort5 ((process_groups cohort5).getD 0 defaultGroup) (by decide)

/-! ### One bucket with a universally shared slot -/

theorem dedupFold_const : ∀ (l : List Person) (k : String × String),
    (∀ p ∈ l, keyOf p = k) →
    l.foldl (fun acc p => if keyOf p ∈ acc then acc else acc ++ [keyOf p]) [k] = [k] := by
  intro l
  induction l with
  | nil => intro k _; rfl
  | cons p ps ih =>
    intro k hk
    have h1 : keyOf p = k := hk p (List.mem_cons_self _ _)
    simp only [List.foldl_cons, h1, List.mem_singleton, if_pos rfl]
    exact ih k (fun q hq => hk q (List.mem_cons_of_mem p hq))

theorem bucketKeys_const {people : List Person} {k : String × String}
    (hne : people ≠ []) (hel : ∀ p ∈ people, eligible p = true)
    (hk : ∀ p ∈ people, keyOf p = k) : bucketKeys people = [k] := by
  unfold bucketKeys
  rw [List.filter_eq_self.mpr hel]
  cases people with
  | nil => exact absurd rfl hne
  | cons p ps =>
    have h1 : keyOf p = k := hk p (List.mem_cons_self _ _)
    simp only [List.foldl_cons, List.not_mem_nil, if_false, List.nil_append, h1]
    exact dedupFold_const ps k (fun q hq => hk q (List.mem_cons_of_mem p hq))

theorem bucketMembers_eq_self {people : List Person} {k : String × String}
    (hel : ∀ p ∈ people, eligible p = true)
    (hk : ∀ p ∈ people, keyOf p = k) : bucketMembers people k = people := by
  apply List.filter_eq_self.mpr
  intro p hp
  simp [hel p hp, hk p hp]

theorem firstValidCombo_of_shared (members : List Person) (size : Nat) (slot : String)
    (hpos : 1 ≤ size) (hsz : size ≤ members.length)
    (hslot : ∀ p ∈ members, slot ∈ personAvailableSlots p.avail) :
    ∃ combo common, firstValidCombo members size = some (combo, common) ∧
      combo.length = size := by
  obtain ⟨c, cs, hc⟩ := combinations_cons_of_le members size hsz
  have hcmem : c ∈ combinations size members := by
    rw [hc]
    exact List.mem_cons_self _ _
  obtain ⟨hlen, hmem⟩ := combinations_spec _ _ _ hcmem
  have hne : find_common_slots (c.map Person.avail) ≠ [] := by
    cases c with
    | nil => rw [← hlen] at hpos; simp at hpos
    | cons m ms =>
      intro hnil
      have hin : slot ∈ find_common_slots ((m :: ms).map Person.avail) := by
        rw [List.map_cons, mem_find_common_slots]
        constructor
        · exact hslot m (hmem m (List.mem_cons_self _ _))
        · intro b hb
          obtain ⟨q, hq, rfl⟩ := List.mem_map.mp hb
          exact hslot q (hmem q (List.mem_cons_of_mem _ hq))
      rw [hnil] at hin
      simp at hin
  refine ⟨c, find_common_slots (c.map Person.avail), ?_, hlen⟩
  unfold firstValidCombo
  rw [hc, List.findSome?_cons]
  have : ¬ (find_common_slots (c.map Person.avail)).isEmpty = true := by
    intro h
    exact hne (List.isEmpty_iff.mp h)
  simp [this]

theorem bucketGroups_sizes {gender study : String} {members : List Person} {slot : String}
    (h5 : 5 ≤ members.length)
    (hslot : ∀ p ∈ members, slot ∈ personAvailableSlots p.avail) (counter : Nat) :
    (bucketGroups gender study members SIZE_RANGE counter).map (fun g => g.members.length) =
      [5, 4, 3, 2] := by
  obtain ⟨c5, m5, h5', l5⟩ :=
    firstValidCombo_of_shared members 5 slot (by omega) (by omega) hslot
  obtain ⟨c4, m4, h4', l4⟩ :=
    firstValidCombo_of_shared members 4 slot (by omega) (by omega) hslot
  obtain ⟨c3, m3, h3', l3⟩ :=
    firstValidCombo_of_shared members 3 slot (by omega) (by omega) hslot
  obtain ⟨c2, m2, h2', l2⟩ :=
    firstValidCombo_of_shared members 2 slot (by omega) (by omega) hslot
  simp only [SIZE_RANGE, bucketGroups, h5', h4', h3', h2', groupOfCombo, List.map_cons,
    List.map_nil, List.length_map, l5, l4, l3, l2]

/-- C1 (amended): the `break` leaves only the inner combination loop, so each
bucket yields at most one group per size in {5,4,3,2}; a bucket of at least
five eligible people sharing one availability slot yields exactly four
groups, of sizes 5, 4, 3 and 2, the first of size 5. -/
theorem C1_first_fit_groups :
    ∀ (people : List Person) (gen stu slot : String),
    5 ≤ people.length →
    (∀ p ∈ people, eligible p = true) →
    (∀ p ∈ people, keyOf p = (gen, stu)) →
    (∀ p ∈ people, slot ∈ personAvailableSlots p.avail) →
    (process_groups people).map (fun g => g.members.length) = [5, 4, 3, 2] := by
  intro people gen stu slot h5 hel hk hslot
  have hne : people ≠ [] := by
    intro h
    rw [h] at h5
    simp at h5
  unfold process_groups
  rw [bucketKeys_const hne hel hk]
  simp only [processBuckets, List.append_nil]
  rw [bucketMembers_eq_self hel hk]
  exact bucketGroups_sizes h5 hslot 1

/-- Witness for C1 (amended) at the concrete five-person cohort. -/
theorem C1_witness :
    (process_groups cohort5).map (fun g => g.members.length) = [5, 4, 3, 2] :=
  C1_first_fit_groups cohort5 "male" "discovery" "S"
    (by decide) (by decide) (by decide) (by decide)

/-- Counterexample to C1 as stated: the five-person bucket qualifies (all
eligible, one bucket key, a universally shared slot), yet the matcher emits
four groups, not exactly one. -/
theorem C1_counterexample :
    5 ≤ cohort5.length ∧ (∀ p ∈ cohort5, eligible p = true) ∧
    (∀ p ∈ cohort5, keyOf p = ("male", "discovery")) ∧
    (∀ p ∈ cohort5, "S" ∈ personAvailableSlots p.avail) ∧
    (process_groups cohort5).length = 4 := by decide

/-- C10: two distinct groups emitted from one matching pass over the
five-person cohort share the member `"a_a_0"`. -/
theorem C10_overlapping_groups :
    ((process_groups cohort5).getD 0 defaultGroup) ∈ process_groups cohort5 ∧
    ((process_groups cohort5).getD 1 defaultGroup) ∈ process_groups cohort5 ∧
    (process_groups cohort5).getD 0 defaultGroup ≠
      (process_groups cohort5).getD 1 defaultGroup ∧
    "a_a_0" ∈ ((process_groups cohort5).getD 0 defaultGroup).members ∧
    "a_a_0" ∈ ((process_groups cohort5).getD 1 defaultGroup).members := by decide

/-! ### Normalizer totality and the empty-cohort check -/

/-- C4 is right about missing fields (they default to the empty string and
the person is still created) but wrong that a blank cell can never throw:
a NaN gender cell makes the row loop raise `AttributeError`, aborting the
whole batch, so the upload reports a processing error instead of creating
the person. -/
theorem C4_code_bug :
    (mkPerson [] 0 []).toOption.map Person.gender = some "" ∧
    mkPeople dfC4 = .error "AttributeError: float object has no attribute strip" ∧
    upload_file dfC4 =
      .error "Error processing file: AttributeError: float object has no attribute strip" :=
  ⟨rfl, rfl, rfl⟩

/-- Counterexample to C5 as stated: a one-person cohort whose person has
completed every study has an empty eligible set, yet the upload succeeds
with zero groups instead of reporting the "no valid people" error. -/
theorem C5_counterexample :
    (mkPeople dfC5).toOption.map (fun ppl => (ppl.length, ppl.filter eligible)) =
      some (1, []) ∧
    (upload_file dfC5).isOk = true ∧
    (upload_file dfC5).toOption.map (fun r => r.1) = some [] := ⟨rfl, rfl, rfl⟩

/-- C5 (amended): the "no valid people" error is raised exactly when the
normalized person list itself is empty (no data rows); a non-empty cohort
with an empty eligible set is a success with zero groups. -/
theorem C5_no_valid_people :
    ∀ (df : DataFrame) (gs : List Group) (ppl : List Person),
    REQUIRED_COLUMNS.filter (fun c => !decide (c ∈ df.columns)) = [] →
    process_csv_data df = .ok (gs, ppl) →
    ((upload_file df = .error "No valid people found in the data" ↔ ppl = []) ∧
     (ppl ≠ [] → upload_file df = .ok (gs, ppl))) := by
  intro df gs ppl hcols hok
  simp only [upload_file, hcols, hok, List.isEmpty_nil, Bool.not_true, Bool.false_eq_true,
    if_false]
  cases ppl with
  | nil => simp
  | cons p ps => simp

/-- Witness for C5 (amended): a data frame with the required columns and no
rows yields the "no valid people" error. -/
theorem C5_witness : upload_file dfEmpty = .error "No valid people found in the data" :=
  (C5_no_valid_people dfEmpty [] [] (by decide) rfl).1.mpr rfl

end App
